import Mathlib

/-!
Shallow embedding of the playback logic of the calavera-literaria
repository.

Part 1 models the stanza audio sequencer of
src/components/CalaveraPlayer.tsx: the React state (playState,
currentStanzaIndex, showAll), the two refs (currentAudioRef,
fallbackTimerRef), and the closure environment created by each
playStanza invocation (one per Audio element: the captured stanza
index, the mutable audioLoaded flag and the mutable local fallbackTimer
variable).  The browser event loop is made explicit: an event list is
folded over a deterministic step function; the feasibility guards
(a timer only fires while pending, an ended event only fires for a
playing audio, listener callbacks only run for an audio that exists)
are checked inside the step function, which skips an inapplicable
event.

Part 2 models the speech driver (the AudioController component):
handlePlay building a single utterance after a global cancel, and the
onboundary handler firing sound effects from substring containment
over the consumed prefix of the poem text.
-/

inductive PlayState
  | idle
  | playing
  | paused
  | ended
deriving DecidableEq, Repr

/-- The closure environment of one playStanza invocation: the captured
stanza index (const), the mutable local audioLoaded flag and the mutable
local fallbackTimer variable (holding the id of the last timer this
closure armed, mirroring the let-bound fallbackTimer in the source). -/
structure Closure where
  index : Nat
  audioLoaded : Bool
  fallbackTimer : Option Nat
deriving DecidableEq, Repr

/-- The whole sequencer state: React state fields, the two refs, and the
explicit event-loop bookkeeping.  Audio elements and timers are named by
ids allocated from counters.  pendingTimers entries are
(timer id, delay in ms, advance target index); audios maps an audio id
to its playing flag (HTMLAudioElement.paused is the negation);
pendingPlays records outstanding audio.play() promises together with a
flag telling whether the rejection handler is the canplay-path one
(which arms the fallback) or the resume-path one (which only warns).
visitLog records each stanza entry performed by playStanza (each
setCurrentStanzaIndex executed past the bounds guard), and warnings
counts console.warn calls. -/
structure SeqState where
  playState : PlayState
  currentStanzaIndex : Nat
  showAll : Bool
  currentAudioRef : Option Nat
  fallbackTimerRef : Option Nat
  closures : List (Nat × Closure)
  audios : List (Nat × Bool)
  pendingPlays : List (Nat × Bool)
  pendingProbes : List Nat
  pendingTimers : List (Nat × Nat × Nat)
  nextAudioId : Nat
  nextTimerId : Nat
  visitLog : List Nat
  warnings : Nat
deriving DecidableEq, Repr

def lookupA {α : Type} (k : Nat) : List (Nat × α) → Option α
  | [] => none
  | (k0, v) :: rest => if k0 = k then some v else lookupA k rest

def setA {α : Type} (k : Nat) (v : α) : List (Nat × α) → List (Nat × α)
  | [] => []
  | (k0, v0) :: rest =>
      if k0 = k then (k0, v) :: rest else (k0, v0) :: setA k v rest

def removeKey {α : Type} (k : Nat) : List (Nat × α) → List (Nat × α)
  | [] => []
  | (k0, v) :: rest => if k0 = k then rest else (k0, v) :: removeKey k rest

/-- Look up a pending timer by id, returning its (delay, target). -/
def findTimer (t : Nat) : List (Nat × Nat × Nat) → Option (Nat × Nat)
  | [] => none
  | (t0, d, g) :: rest => if t0 = t then some (d, g) else findTimer t rest

/-- clearTimeout: remove a timer id from the pending list. -/
def clearTimer (t : Nat) (l : List (Nat × Nat × Nat)) :
    List (Nat × Nat × Nat) :=
  l.filter (fun x => x.1 != t)

/-- Entering stanza `index` (the playStanza function of the source).
If index >= stanzas.length the state becomes ended and nothing else
changes; otherwise the current index is set, a fresh Audio element is
created (its closure environment with audioLoaded = false and local
fallbackTimer = null), the currentAudioRef is overwritten (the previous
audio element is NOT stopped), its listeners are attached, and the
500 ms probe timeout is scheduled. -/
def playStanza (stanzas : List (List String)) (index : Nat)
    (s : SeqState) : SeqState :=
  if stanzas.length ≤ index then
    { s with playState := PlayState.ended }
  else
    let a := s.nextAudioId
    { s with
      currentStanzaIndex := index
      visitLog := s.visitLog ++ [index]
      currentAudioRef := some a
      closures := (a, ⟨index, false, none⟩) :: s.closures
      audios := (a, false) :: s.audios
      pendingProbes := a :: s.pendingProbes
      nextAudioId := a + 1 }

/-- The useFallback closure of playStanza: arm a fresh 10000 ms timer
whose callback is playStanza(index + 1); store it in the closure-local
fallbackTimer variable and in fallbackTimerRef.  A previously armed
timer is NOT cleared. -/
def useFallback (a : Nat) (s : SeqState) : SeqState :=
  match lookupA a s.closures with
  | none => s
  | some c =>
      let t := s.nextTimerId
      { s with
        pendingTimers := s.pendingTimers ++ [(t, 10000, c.index + 1)]
        closures := setA a { c with fallbackTimer := some t } s.closures
        fallbackTimerRef := some t
        nextTimerId := t + 1 }

/-- The handleError closure: console.warn then useFallback. -/
def handleError (a : Nat) (s : SeqState) : SeqState :=
  useFallback a { s with warnings := s.warnings + 1 }

/-- The handleCanPlay closure: set the closure-local audioLoaded flag,
then call audio.play() (an outstanding promise whose rejection handler
is the canplay-path one). -/
def handleCanPlay (a : Nat) (s : SeqState) : SeqState :=
  match lookupA a s.closures with
  | none => s
  | some c =>
      { s with
        closures := setA a { c with audioLoaded := true } s.closures
        pendingPlays := (a, true) :: s.pendingPlays }

/-- The handleEnded closure: if the closure-local fallbackTimer is set,
clearTimeout it, then playStanza(index + 1). -/
def handleEnded (stanzas : List (List String)) (a : Nat)
    (s : SeqState) : SeqState :=
  match lookupA a s.closures with
  | none => s
  | some c =>
      let s1 :=
        match c.fallbackTimer with
        | some t => { s with pendingTimers := clearTimer t s.pendingTimers }
        | none => s
      playStanza stanzas (c.index + 1) s1

/-- The handlePlay control handler: setPlayState('playing'),
setCurrentStanzaIndex(0), setShowAll(false), playStanza(0). -/
def handlePlay (stanzas : List (List String)) (s : SeqState) : SeqState :=
  playStanza stanzas 0
    { s with
      playState := PlayState.playing
      currentStanzaIndex := 0
      showAll := false }

/-- The handlePause control handler: pause the ref'd audio (if any),
clearTimeout the ref'd fallback timer (if any; the ref itself is not
nulled, matching the source), setPlayState('paused'). -/
def handlePause (s : SeqState) : SeqState :=
  let s1 :=
    match s.currentAudioRef with
    | some a => { s with audios := setA a false s.audios }
    | none => s
  let s2 :=
    match s1.fallbackTimerRef with
    | some t => { s1 with pendingTimers := clearTimer t s1.pendingTimers }
    | none => s1
  { s2 with playState := PlayState.paused }

/-- The handleResume control handler: setPlayState('playing'); if a
ref'd audio exists and is paused, call its play() (whose catch only
warns); otherwise playStanza(currentStanzaIndex). -/
def handleResume (stanzas : List (List String)) (s : SeqState) : SeqState :=
  let s1 := { s with playState := PlayState.playing }
  match s.currentAudioRef with
  | some a =>
      if lookupA a s.audios = some false then
        { s1 with pendingPlays := (a, false) :: s1.pendingPlays }
      else
        playStanza stanzas s.currentStanzaIndex s1
  | none => playStanza stanzas s.currentStanzaIndex s1

/-- The handleStop control handler: pause and null the ref'd audio,
clearTimeout the ref'd fallback timer, setPlayState('idle'),
setCurrentStanzaIndex(0).  The untracked 500 ms probe timeouts and the
audio element listeners are untouched, matching the source. -/
def handleStop (s : SeqState) : SeqState :=
  let s1 :=
    match s.currentAudioRef with
    | some a =>
        { s with audios := setA a false s.audios, currentAudioRef := none }
    | none => s
  let s2 :=
    match s1.fallbackTimerRef with
    | some t => { s1 with pendingTimers := clearTimer t s1.pendingTimers }
    | none => s1
  { s2 with playState := PlayState.idle, currentStanzaIndex := 0 }

/-- The handleShowAll control handler: setShowAll(true). -/
def handleShowAll (s : SeqState) : SeqState :=
  { s with showAll := true }

/-- Events of the browser event loop: the user controls, the media
events of a given audio element, the resolution of an audio.play()
promise, the 500 ms probe timeout and a fallback timeout firing. -/
inductive Ev
  | play
  | pause
  | resume
  | stop
  | showAllBtn
  | canplay (a : Nat)
  | playOk (a : Nat)
  | playReject (a : Nat)
  | audioEnded (a : Nat)
  | audioError (a : Nat)
  | probeFire (a : Nat)
  | fallbackFire (t : Nat)
deriving DecidableEq, Repr

/-- One step of the event loop.  Inapplicable events (a timer that is
not pending, a media event of an audio that does not exist, an ended
event of an audio that is not playing) are skipped. -/
def step (stanzas : List (List String)) (s : SeqState) (e : Ev) : SeqState :=
  match e with
  | Ev.play => handlePlay stanzas s
  | Ev.pause => handlePause s
  | Ev.resume => handleResume stanzas s
  | Ev.stop => handleStop s
  | Ev.showAllBtn => handleShowAll s
  | Ev.canplay a => handleCanPlay a s
  | Ev.playOk a =>
      match lookupA a s.pendingPlays with
      | none => s
      | some _ =>
          { s with
            pendingPlays := removeKey a s.pendingPlays
            audios := setA a true s.audios }
  | Ev.playReject a =>
      match lookupA a s.pendingPlays with
      | none => s
      | some viaCanplay =>
          let s1 := { s with
            pendingPlays := removeKey a s.pendingPlays
            warnings := s.warnings + 1 }
          if viaCanplay then useFallback a s1 else s1
  | Ev.audioEnded a =>
      if lookupA a s.audios = some true then
        handleEnded stanzas a { s with audios := setA a false s.audios }
      else s
  | Ev.audioError a =>
      match lookupA a s.closures with
      | none => s
      | some _ => handleError a s
  | Ev.probeFire a =>
      if s.pendingProbes.contains a then
        let s1 :=
          { s with pendingProbes := s.pendingProbes.filter (fun b => b != a) }
        match lookupA a s1.closures with
        | none => s1
        | some c => if c.audioLoaded then s1 else handleError a s1
      else s
  | Ev.fallbackFire t =>
      match findTimer t s.pendingTimers with
      | none => s
      | some (_, target) =>
          playStanza stanzas target
            { s with pendingTimers := clearTimer t s.pendingTimers }

/-- The initial component state: idle, index 0, showAll false, no refs,
nothing scheduled. -/
def initState : SeqState :=
  ⟨PlayState.idle, 0, false, none, none, [], [], [], [], [], 0, 0, [], 0⟩

/-- Run the sequencer on a list of events from the initial state. -/
def run (stanzas : List (List String)) (es : List Ev) : SeqState :=
  es.foldl (step stanzas) initState

example :
    (run [["a"], ["b"]] [Ev.play, Ev.canplay 0, Ev.playOk 0,
      Ev.audioEnded 0]).currentStanzaIndex = 1 := by decide

example :
    (run [["a"]] [Ev.play, Ev.canplay 0, Ev.playOk 0,
      Ev.audioEnded 0]).playState = PlayState.ended := by decide

/-- Claim C1: stop() from any state reaches idle with index 0, and no
callback scheduled before the stop ever causes a further stanza advance
or state change.  The first two conjuncts show the reset; the remaining
conjuncts show the violation: the untracked 500 ms probe timeout of the
pre-stop audio survives the stop, re-arms a fallback timer, and its
expiry changes the state to ended (one-stanza poem) and advances the
index and visit log (two-stanza poem) after the stop. -/
theorem c1_stop_then_stale_probe_advances :
    (run [["a"]] [Ev.play, Ev.stop]).playState = PlayState.idle ∧
    (run [["a"]] [Ev.play, Ev.stop]).currentStanzaIndex = 0 ∧
    (run [["a"]] [Ev.play, Ev.stop, Ev.probeFire 0,
      Ev.fallbackFire 0]).playState = PlayState.ended ∧
    (run [["a"], ["b"]] [Ev.play, Ev.stop, Ev.probeFire 0,
      Ev.fallbackFire 0]).currentStanzaIndex = 1 ∧
    (run [["a"], ["b"]] [Ev.play, Ev.stop, Ev.probeFire 0,
      Ev.fallbackFire 0]).visitLog = [0, 1] := by decide

/-- Claim C2: each advance from stanza i to i+1 is triggered at most
once.  Violated: when the asset of stanza 0 is missing and its error
event fires before the 500 ms probe (the probe only checks the
audioLoaded flag, and useFallback never clears a previously armed
timer), two 10 s fallback timers are pending simultaneously and both
fire playStanza(1): the visit log records the advance to index 1
twice. -/
theorem c2_missing_asset_advances_twice :
    (run [["a"], ["b"]] [Ev.play, Ev.audioError 0,
      Ev.probeFire 0]).pendingTimers = [(0, 10000, 1), (1, 10000, 1)] ∧
    (run [["a"], ["b"]] [Ev.play, Ev.audioError 0, Ev.probeFire 0,
      Ev.fallbackFire 0, Ev.fallbackFire 1]).visitLog = [0, 1, 1] := by decide

/-- Claim C3: at most one live audio handle and at most one pending
fallback timer at every instant, the previous ones being released
before new ones are created.  Violated: after the error event and the
probe both fire for a missing asset, two fallback timers are pending at
once; and when a stalled asset loads after its probe armed a fallback,
the fallback starts stanza 1 without stopping the stanza-0 audio, so
two audio handles play simultaneously. -/
theorem c3_two_pending_timers_and_two_live_audios :
    (run [["a"], ["b"], ["c"]] [Ev.play, Ev.audioError 0,
      Ev.probeFire 0]).pendingTimers.length = 2 ∧
    (run [["a"], ["b"], ["c"]] [Ev.play, Ev.probeFire 0, Ev.canplay 0,
      Ev.playOk 0, Ev.fallbackFire 0, Ev.canplay 1,
      Ev.playOk 1]).audios.filter (fun x => x.2) = [(1, true), (0, true)]
      := by decide

/-- Closure list after stanzas 0..n-1 have been fully played: each
closure loaded, no local timer, most recent first. -/
def doneClosures : Nat → List (Nat × Closure)
  | 0 => []
  | Nat.succ i => (i, ⟨i, true, none⟩) :: doneClosures i

/-- Audio list after stanzas 0..n-1 have been fully played: each audio
element exists and is no longer playing. -/
def doneAudios : Nat → List (Nat × Bool)
  | 0 => []
  | Nat.succ i => (i, false) :: doneAudios i

/-- The sequencer state at the moment stanza i has just been entered
during a fully natural playback (every earlier asset loaded promptly,
played to completion, and its probe found the loaded flag set). -/
def natState (i : Nat) : SeqState :=
  { playState := PlayState.playing
    currentStanzaIndex := i
    showAll := false
    currentAudioRef := some i
    fallbackTimerRef := none
    closures := (i, ⟨i, false, none⟩) :: doneClosures i
    audios := (i, false) :: doneAudios i
    pendingPlays := []
    pendingProbes := [i]
    pendingTimers := []
    nextAudioId := i + 1
    nextTimerId := 0
    visitLog := List.range (i + 1)
    warnings := 0 }

/-- The sequencer state after a fully natural playback of n >= 1
stanzas: ended, having visited exactly the indices 0..n-1 in order. -/
def endStateNat (n : Nat) : SeqState :=
  { playState := PlayState.ended
    currentStanzaIndex := n - 1
    showAll := false
    currentAudioRef := some (n - 1)
    fallbackTimerRef := none
    closures := doneClosures n
    audios := doneAudios n
    pendingPlays := []
    pendingProbes := []
    pendingTimers := []
    nextAudioId := n
    nextTimerId := 0
    visitLog := List.range n
    warnings := 0 }

/-- The event sequence of one naturally played stanza: the asset loads
before the 500 ms probe, play() succeeds, the probe then finds the
loaded flag set and does nothing, and the audio ends naturally. -/
def natRound (i : Nat) : List Ev :=
  [Ev.canplay i, Ev.playOk i, Ev.probeFire i, Ev.audioEnded i]

/-- Natural rounds for the k stanza indices starting at i. -/
def natRounds : Nat → Nat → List Ev
  | _, 0 => []
  | i, Nat.succ k => natRound i ++ natRounds (i + 1) k

/-- The full natural-playback schedule over n stanzas. -/
def naturalSchedule (n : Nat) : List Ev := Ev.play :: natRounds 0 n

theorem play_start (stanzas : List (List String))
    (h : 0 < stanzas.length) :
    step stanzas initState Ev.play = natState 0 := by
  simp [step, handlePlay, playStanza, initState, natState, doneClosures,
    doneAudios, Nat.not_le.mpr h]
  decide

theorem natRound_step (stanzas : List (List String)) (i : Nat)
    (h : i + 1 < stanzas.length) :
    List.foldl (step stanzas) (natState i) (natRound i) = natState (i + 1) := by
  simp [natRound, List.foldl, step, handleCanPlay, natState, lookupA, setA,
    handleEnded, playStanza, handleError, useFallback, removeKey,
    clearTimer, doneClosures, doneAudios, List.range_succ,
    Nat.not_le.mpr h]

theorem natRound_last (stanzas : List (List String)) (i : Nat)
    (h : i + 1 = stanzas.length) :
    List.foldl (step stanzas) (natState i) (natRound i)
      = endStateNat stanzas.length := by
  simp [natRound, List.foldl, step, handleCanPlay, natState, lookupA, setA,
    handleEnded, playStanza, handleError, useFallback, removeKey,
    clearTimer, endStateNat, ← h, doneClosures, doneAudios, List.range_succ]

theorem natRounds_run (stanzas : List (List String)) :
    ∀ k i, i + k = stanzas.length → i < stanzas.length →
    List.foldl (step stanzas) (natState i) (natRounds i k)
      = endStateNat stanzas.length := by
  intro k
  induction k with
  | zero => intro i h hi; omega
  | succ k ih =>
      intro i h hi
      rw [natRounds, List.foldl_append]
      cases k with
      | zero =>
          rw [natRounds]
          simp only [List.foldl_nil]
          exact natRound_last stanzas i (by omega)
      | succ k =>
          rw [natRound_step stanzas i (by omega)]
          exact ih (i + 1) (by omega) (by omega)

/-- Claim C4: for every list of N >= 0 stanzas, a full natural playback
(each asset loads before its probe, plays, and ends naturally) visits
the stanza indices 0..N-1 in increasing order exactly once (the visit
log is exactly List.range N) and then reaches the ended state; for
N = 0 the play() call reaches ended directly. -/
theorem c4_natural_playback_visits_in_order (stanzas : List (List String)) :
    (run stanzas (naturalSchedule stanzas.length)).visitLog
      = List.range stanzas.length ∧
    (run stanzas (naturalSchedule stanzas.length)).playState
      = PlayState.ended := by
  cases stanzas with
  | nil => exact ⟨rfl, rfl⟩
  | cons st rest =>
      have h0 : 0 < (st :: rest).length := by simp
      have hrun : run (st :: rest) (naturalSchedule (st :: rest).length)
          = endStateNat (st :: rest).length := by
        rw [naturalSchedule, run, List.foldl_cons, play_start _ h0]
        exact natRounds_run _ (st :: rest).length 0 (by omega) h0
      rw [hrun]
      exact ⟨rfl, rfl⟩

theorem playStanza_index_le (stanzas : List (List String)) (i : Nat)
    (s : SeqState) (h : s.currentStanzaIndex ≤ stanzas.length - 1) :
    (playStanza stanzas i s).currentStanzaIndex ≤ stanzas.length - 1 := by
  unfold playStanza
  split
  · exact h
  · next hle => simp; omega

theorem useFallback_index (a : Nat) (s : SeqState) :
    (useFallback a s).currentStanzaIndex = s.currentStanzaIndex := by
  unfold useFallback; split <;> rfl

theorem handleError_index (a : Nat) (s : SeqState) :
    (handleError a s).currentStanzaIndex = s.currentStanzaIndex := by
  unfold handleError; rw [useFallback_index]

theorem handleCanPlay_index (a : Nat) (s : SeqState) :
    (handleCanPlay a s).currentStanzaIndex = s.currentStanzaIndex := by
  unfold handleCanPlay; split <;> rfl

theorem handlePause_index (s : SeqState) :
    (handlePause s).currentStanzaIndex = s.currentStanzaIndex := by
  unfold handlePause
  split <;> dsimp only <;> split <;> rfl

theorem handleStop_index (s : SeqState) :
    (handleStop s).currentStanzaIndex = 0 := by
  unfold handleStop
  split <;> dsimp only <;> split <;> rfl

theorem step_index_le (stanzas : List (List String)) (s : SeqState) (e : Ev)
    (h : s.currentStanzaIndex ≤ stanzas.length - 1) :
    (step stanzas s e).currentStanzaIndex ≤ stanzas.length - 1 := by
  cases e with
  | play =>
      exact playStanza_index_le _ _ _ (by simp)
  | pause =>
      simp only [step]; rw [handlePause_index]; exact h
  | resume =>
      simp only [step]; unfold handleResume
      split
      · split
        · exact h
        · exact playStanza_index_le _ _ _ h
      · exact playStanza_index_le _ _ _ h
  | stop =>
      simp only [step]; rw [handleStop_index]; exact Nat.zero_le _
  | showAllBtn => exact h
  | canplay a => simp only [step]; rw [handleCanPlay_index]; exact h
  | playOk a =>
      simp only [step]; split
      · exact h
      · exact h
  | playReject a =>
      simp only [step]; split
      · exact h
      · split
        · rw [useFallback_index]; exact h
        · exact h
  | audioEnded a =>
      simp only [step]; split
      · unfold handleEnded
        split
        · exact h
        · split <;> exact playStanza_index_le _ _ _ h
      · exact h
  | audioError a =>
      simp only [step]; split
      · exact h
      · rw [handleError_index]; exact h
  | probeFire a =>
      simp only [step]; split
      · split
        · exact h
        · split
          · exact h
          · rw [handleError_index]; exact h
      · exact h
  | fallbackFire t =>
      simp only [step]; split
      · exact h
      · exact playStanza_index_le _ _ _ h

theorem run_index_le (stanzas : List (List String)) (es : List Ev) :
    (run stanzas es).currentStanzaIndex ≤ stanzas.length - 1 := by
  have key : ∀ (l : List Ev) (s : SeqState),
      s.currentStanzaIndex ≤ stanzas.length - 1 →
      (List.foldl (step stanzas) s l).currentStanzaIndex
        ≤ stanzas.length - 1 := by
    intro l
    induction l with
    | nil => intro s h; exact h
    | cons e l ih =>
        intro s h
        exact ih _ (step_index_le stanzas s e h)
  exact key es initState (Nat.zero_le _)

/-- Claim C10: in every reachable state the current stanza index lies
in [0, max(N-1, 0)] (in Nat, index <= N - 1); playStanza sets the index
only when its argument is below N, and with an argument >= N it only
sets the ended state, leaving everything else (the index included)
unchanged; for N = 0 the play() call reaches ended with index 0. -/
theorem c10_index_always_in_range (stanzas : List (List String)) :
    (∀ es : List Ev,
      (run stanzas es).currentStanzaIndex ≤ stanzas.length - 1) ∧
    (∀ (s : SeqState) (i : Nat), stanzas.length ≤ i →
      playStanza stanzas i s = { s with playState := PlayState.ended }) ∧
    (∀ (s : SeqState) (i : Nat), i < stanzas.length →
      (playStanza stanzas i s).currentStanzaIndex = i) ∧
    (stanzas.length = 0 →
      (run stanzas [Ev.play]).playState = PlayState.ended ∧
      (run stanzas [Ev.play]).currentStanzaIndex = 0) := by
  refine ⟨run_index_le stanzas, ?_, ?_, ?_⟩
  · intro s i hi
    unfold playStanza
    rw [if_pos hi]
  · intro s i hi
    unfold playStanza
    rw [if_neg (Nat.not_le.mpr hi)]
  · intro h0
    constructor <;> simp [run, step, handlePlay, playStanza, initState, h0]

/-- Witness for c10_index_always_in_range: the theorem applied at a
two-stanza poem (bound, out-of-range call, in-range call) and at the
empty poem. -/
theorem c10_index_always_in_range_witness :
    (run [["a"], ["b"]] [Ev.play, Ev.canplay 0, Ev.playOk 0,
      Ev.audioEnded 0]).currentStanzaIndex ≤ 1 ∧
    playStanza [["a"], ["b"]] 5 initState
      = { initState with playState := PlayState.ended } ∧
    (playStanza [["a"], ["b"]] 1 initState).currentStanzaIndex = 1 ∧
    (run ([] : List (List String)) [Ev.play]).playState = PlayState.ended ∧
    (run ([] : List (List String)) [Ev.play]).currentStanzaIndex = 0 :=
  ⟨(c10_index_always_in_range [["a"], ["b"]]).1 _,
   (c10_index_always_in_range [["a"], ["b"]]).2.1 initState 5 (by decide),
   (c10_index_always_in_range [["a"], ["b"]]).2.2.1 initState 1 (by decide),
   ((c10_index_always_in_range []).2.2.2 rfl).1,
   ((c10_index_always_in_range []).2.2.2 rfl).2⟩

theorem lookupA_setA {α : Type} (k : Nat) (v : α) (l : List (Nat × α)) :
    lookupA k (setA k v l) = (lookupA k l).map (fun _ => v) := by
  induction l with
  | nil => rfl
  | cons x l ih =>
      obtain ⟨k0, v0⟩ := x
      by_cases hk : k0 = k <;> simp [lookupA, setA, hk, ih]

theorem findTimer_clearTimer (t : Nat) (l : List (Nat × Nat × Nat)) :
    findTimer t (clearTimer t l) = none := by
  induction l with
  | nil => rfl
  | cons x l ih =>
      obtain ⟨t0, d0, g0⟩ := x
      by_cases ht : t0 = t <;> simp [findTimer, clearTimer, ht] at ih ⊢ <;>
        simpa [clearTimer] using ih

theorem findTimer_append_fresh (t : Nat) (l : List (Nat × Nat × Nat))
    (d g : Nat) (h : findTimer t l = none) :
    findTimer t (l ++ [(t, d, g)]) = some (d, g) := by
  induction l with
  | nil => simp [findTimer]
  | cons x l ih =>
      obtain ⟨t0, d0, g0⟩ := x
      by_cases ht : t0 = t
      · simp [findTimer, ht] at h
      · simp only [List.cons_append, findTimer, if_neg ht] at h ⊢
        exact ih h

theorem handleError_eq (s : SeqState) (a : Nat) (c : Closure)
    (hc : lookupA a s.closures = some c) :
    handleError a s = { s with
      warnings := s.warnings + 1
      pendingTimers := s.pendingTimers ++ [(s.nextTimerId, 10000, c.index + 1)]
      closures := setA a { c with fallbackTimer := some s.nextTimerId } s.closures
      fallbackTimerRef := some s.nextTimerId
      nextTimerId := s.nextTimerId + 1 } := by
  unfold handleError useFallback
  simp [hc]

/-- Claim C7: for a stanza whose audio asset fails to load (the error
event) or loads but has its play() rejected, the sequencer logs a
warning, arms a fixed 10000 ms fallback timer, and when that timer
expires it advances to the next index; the failure is non-fatal and
sequencing continues (a new stanza entry is logged).  The last conjunct
identifies the play-rejection path of the canplay handler with
handleError's warn-and-arm behaviour. -/
theorem c7_failure_arms_fallback_then_advances
    (stanzas : List (List String)) (s : SeqState) (a : Nat) (c : Closure)
    (hc : lookupA a s.closures = some c)
    (hfresh : findTimer s.nextTimerId s.pendingTimers = none)
    (hlt : c.index + 1 < stanzas.length) :
    (handleError a s).warnings = s.warnings + 1 ∧
    findTimer s.nextTimerId (handleError a s).pendingTimers
      = some (10000, c.index + 1) ∧
    (step stanzas (handleError a s)
      (Ev.fallbackFire s.nextTimerId)).currentStanzaIndex = c.index + 1 ∧
    (step stanzas (handleError a s)
      (Ev.fallbackFire s.nextTimerId)).visitLog
      = s.visitLog ++ [c.index + 1] ∧
    (lookupA a s.pendingPlays = some true →
      step stanzas s (Ev.playReject a)
        = handleError a { s with pendingPlays := removeKey a s.pendingPlays }) := by
  rw [handleError_eq s a c hc]
  have hfind := findTimer_append_fresh s.nextTimerId s.pendingTimers
    10000 (c.index + 1) hfresh
  refine ⟨rfl, hfind, ?_, ?_, ?_⟩
  · simp only [step, hfind]
    unfold playStanza
    rw [if_neg (Nat.not_le.mpr hlt)]
  · simp only [step, hfind]
    unfold playStanza
    rw [if_neg (Nat.not_le.mpr hlt)]
  · intro hplay
    simp only [step, hplay, if_pos]
    unfold handleError
    rfl

/-- Witness for c7_failure_arms_fallback_then_advances: the state right
after play() on a two-stanza poem, with the stanza-0 audio failing. -/
theorem c7_witness :
    (handleError 0 (run [["a"], ["b"]] [Ev.play])).warnings
      = (run [["a"], ["b"]] [Ev.play]).warnings + 1 ∧
    findTimer (run [["a"], ["b"]] [Ev.play]).nextTimerId
      (handleError 0 (run [["a"], ["b"]] [Ev.play])).pendingTimers
      = some (10000, 1) ∧
    (step [["a"], ["b"]] (handleError 0 (run [["a"], ["b"]] [Ev.play]))
      (Ev.fallbackFire
        (run [["a"], ["b"]] [Ev.play]).nextTimerId)).currentStanzaIndex
      = 1 :=
  have h := c7_failure_arms_fallback_then_advances [["a"], ["b"]]
    (run [["a"], ["b"]] [Ev.play]) 0 ⟨0, false, none⟩
    (by decide) (by decide) (by decide)
  ⟨h.1, h.2.1, h.2.2.1⟩

theorem handlePause_eq (s : SeqState) (a : Nat)
    (href : s.currentAudioRef = some a) :
    handlePause s = { s with
      audios := setA a false s.audios
      pendingTimers :=
        match s.fallbackTimerRef with
        | some t => clearTimer t s.pendingTimers
        | none => s.pendingTimers
      playState := PlayState.paused } := by
  unfold handlePause
  rw [href]
  cases hft : s.fallbackTimerRef <;> simp [hft]

theorem playStanza_index_eq (stanzas : List (List String)) (i : Nat)
    (s : SeqState) :
    (playStanza stanzas i s).currentStanzaIndex
      = if stanzas.length ≤ i then s.currentStanzaIndex else i := by
  unfold playStanza
  split <;> simp_all

/-- Claim C8: from a playing state with an active audio handle, pause()
pauses the handle, cancels the ref'd pending fallback timer, retains the
handle and sets the paused state, leaving the index unchanged; resume()
then sets the playing state and continues at the same stanza index,
requesting play() of the retained paused handle (no stanza entry is
added to the visit log, so no index is skipped or repeated); and from a
state without a retained handle, resume() restarts sequencing at the
current index. -/
theorem c8_pause_resume_keeps_index (stanzas : List (List String))
    (s : SeqState) (a : Nat)
    (hstate : s.playState = PlayState.playing)
    (href : s.currentAudioRef = some a)
    (hplaying : lookupA a s.audios = some true) :
    (handlePause s).playState = PlayState.paused ∧
    (handlePause s).currentAudioRef = some a ∧
    lookupA a (handlePause s).audios = some false ∧
    (∀ t, s.fallbackTimerRef = some t →
      findTimer t (handlePause s).pendingTimers = none) ∧
    (handlePause s).currentStanzaIndex = s.currentStanzaIndex ∧
    (handleResume stanzas (handlePause s)).playState = PlayState.playing ∧
    (handleResume stanzas (handlePause s)).currentStanzaIndex
      = s.currentStanzaIndex ∧
    (handleResume stanzas (handlePause s)).visitLog = s.visitLog ∧
    (handleResume stanzas (handlePause s)).pendingPlays
      = (a, false) :: s.pendingPlays ∧
    (∀ s2 : SeqState, s2.currentAudioRef = none →
      s2.currentStanzaIndex < stanzas.length →
      (handleResume stanzas s2).playState = PlayState.playing ∧
      (handleResume stanzas s2).currentStanzaIndex
        = s2.currentStanzaIndex) := by
  rw [handlePause_eq s a href]
  have hlook : lookupA a (setA a false s.audios) = some false := by
    rw [lookupA_setA, hplaying]
    rfl
  have hres : handleResume stanzas { s with
      audios := setA a false s.audios
      pendingTimers :=
        match s.fallbackTimerRef with
        | some t => clearTimer t s.pendingTimers
        | none => s.pendingTimers
      playState := PlayState.paused }
      = { s with
          audios := setA a false s.audios
          pendingTimers :=
            match s.fallbackTimerRef with
            | some t => clearTimer t s.pendingTimers
            | none => s.pendingTimers
          playState := PlayState.playing
          pendingPlays := (a, false) :: s.pendingPlays } := by
    unfold handleResume
    rw [href]
    simp [hlook]
  refine ⟨rfl, href, hlook, ?_, rfl, ?_, ?_, ?_, ?_, ?_⟩
  · intro t ht
    simp only [ht]
    exact findTimer_clearTimer t s.pendingTimers
  · rw [hres]
  · rw [hres]
  · rw [hres]
  · rw [hres]
  · intro s2 h2 hlt
    unfold handleResume
    rw [h2]
    dsimp only
    constructor
    · unfold playStanza
      rw [if_neg (Nat.not_le.mpr hlt)]
    · rw [playStanza_index_eq]
      rw [if_neg (Nat.not_le.mpr hlt)]

/-- Witness for c8_pause_resume_keeps_index: a two-stanza poem playing
stanza 0 with its audio loaded and playing. -/
theorem c8_witness :
    (handlePause (run [["a"], ["b"]]
      [Ev.play, Ev.canplay 0, Ev.playOk 0])).playState
      = PlayState.paused ∧
    (handleResume [["a"], ["b"]] (handlePause (run [["a"], ["b"]]
      [Ev.play, Ev.canplay 0, Ev.playOk 0]))).currentStanzaIndex
      = (run [["a"], ["b"]] [Ev.play, Ev.canplay 0, Ev.playOk 0]).currentStanzaIndex ∧
    (handleResume [["a"], ["b"]] (handlePause (run [["a"], ["b"]]
      [Ev.play, Ev.canplay 0, Ev.playOk 0]))).playState
      = PlayState.playing :=
  have h := c8_pause_resume_keeps_index [["a"], ["b"]]
    (run [["a"], ["b"]] [Ev.play, Ev.canplay 0, Ev.playOk 0]) 0
    (by decide) (by decide) (by decide)
  ⟨h.1, h.2.2.2.2.2.2.1, h.2.2.2.2.2.1⟩

theorem playStanza_showAll (stanzas : List (List String)) (i : Nat)
    (s : SeqState) : (playStanza stanzas i s).showAll = s.showAll := by
  unfold playStanza; split <;> rfl

theorem useFallback_showAll (a : Nat) (s : SeqState) :
    (useFallback a s).showAll = s.showAll := by
  unfold useFallback; split <;> rfl

theorem handleError_showAll (a : Nat) (s : SeqState) :
    (handleError a s).showAll = s.showAll := by
  unfold handleError; rw [useFallback_showAll]

theorem handleCanPlay_showAll (a : Nat) (s : SeqState) :
    (handleCanPlay a s).showAll = s.showAll := by
  unfold handleCanPlay; split <;> rfl

theorem handleEnded_showAll (stanzas : List (List String)) (a : Nat)
    (s : SeqState) : (handleEnded stanzas a s).showAll = s.showAll := by
  unfold handleEnded
  split
  · rfl
  · dsimp only; split <;> rw [playStanza_showAll]

theorem handlePause_showAll (s : SeqState) :
    (handlePause s).showAll = s.showAll := by
  unfold handlePause; split <;> dsimp only <;> split <;> rfl

theorem handleResume_showAll (stanzas : List (List String)) (s : SeqState) :
    (handleResume stanzas s).showAll = s.showAll := by
  unfold handleResume
  split
  · split
    · rfl
    · rw [playStanza_showAll]
  · rw [playStanza_showAll]

theorem handleStop_showAll (s : SeqState) :
    (handleStop s).showAll = s.showAll := by
  unfold handleStop; split <;> dsimp only <;> split <;> rfl

/-- Claim C9 counterexample: the claim says no playback operation of the
state machine changes the show-all flag, but handlePlay executes
setShowAll(false): from a state with the flag set, play() clears it. -/
theorem c9_play_changes_show_all :
    (run [["a"]] [Ev.play, Ev.canplay 0, Ev.playOk 0,
      Ev.showAllBtn]).showAll = true ∧
    (step [["a"]] (run [["a"]] [Ev.play, Ev.canplay 0, Ev.playOk 0,
      Ev.showAllBtn]) Ev.play).showAll = false := by decide

/-- Claim C9 amended: toggling the show-all flag changes only the
rendering mode (play state, stanza index and visit log are untouched),
and every playback operation except play() leaves the flag unchanged;
play() resets the flag to false before starting playback. -/
theorem c9_show_all_is_rendering_only (stanzas : List (List String)) :
    (∀ s : SeqState, (handleShowAll s).playState = s.playState ∧
      (handleShowAll s).currentStanzaIndex = s.currentStanzaIndex ∧
      (handleShowAll s).visitLog = s.visitLog) ∧
    (∀ (s : SeqState) (e : Ev), e ≠ Ev.play → e ≠ Ev.showAllBtn →
      (step stanzas s e).showAll = s.showAll) ∧
    (∀ s : SeqState, (step stanzas s Ev.play).showAll = false) := by
  refine ⟨fun s => ⟨rfl, rfl, rfl⟩, ?_, ?_⟩
  · intro s e hp hs
    cases e with
    | play => exact absurd rfl hp
    | showAllBtn => exact absurd rfl hs
    | pause => simp only [step]; rw [handlePause_showAll]
    | resume => simp only [step]; rw [handleResume_showAll]
    | stop => simp only [step]; rw [handleStop_showAll]
    | canplay a => simp only [step]; rw [handleCanPlay_showAll]
    | playOk a =>
        simp only [step]; split
        · rfl
        · rfl
    | playReject a =>
        simp only [step]; split
        · rfl
        · split
          · rw [useFallback_showAll]
          · rfl
    | audioEnded a =>
        simp only [step]; split
        · rw [handleEnded_showAll]
        · rfl
    | audioError a =>
        simp only [step]; split
        · rfl
        · rw [handleError_showAll]
    | probeFire a =>
        simp only [step]; split
        · split
          · rfl
          · split
            · rfl
            · rw [handleError_showAll]
        · rfl
    | fallbackFire t =>
        simp only [step]; split
        · rfl
        · rw [playStanza_showAll]
  · intro s
    simp only [step]
    unfold handlePlay
    rw [playStanza_showAll]

/-- Witness for c9_show_all_is_rendering_only: the toggle and the
pause, stop and play operations evaluated at the initial state of a
one-stanza poem. -/
theorem c9_show_all_witness :
    (handleShowAll initState).playState = initState.playState ∧
    (step [["a"]] initState Ev.pause).showAll = initState.showAll ∧
    (step [["a"]] initState Ev.stop).showAll = initState.showAll ∧
    (step [["a"]] initState Ev.play).showAll = false :=
  have h := c9_show_all_is_rendering_only [["a"]]
  ⟨(h.1 initState).1,
   h.2.1 initState Ev.pause (by decide) (by decide),
   h.2.1 initState Ev.stop (by decide) (by decide),
   h.2.2 initState⟩

/-!
Part 2: the speech driver (the AudioController component of the
unnamed source file).  Text is modelled as a list of characters
(JavaScript substring(0, charIndex) becomes List.take, and
String.prototype.includes becomes substring containment).
-/

/-- A speech-synthesis voice, identified by its BCP-47 language tag. -/
structure Voice where
  lang : List Char
deriving DecidableEq, Repr

/-- A SpeechSynthesisUtterance as handlePlay configures it. -/
structure Utterance where
  text : List Char
  voice : Option Voice
  rate : ℚ
  pitch : ℚ
  volume : ℚ
  lang : List Char
deriving DecidableEq, Repr

/-- The speech driver state: the four-state lifecycle value, the
capability flag, the utterance ref, the engine's queue of spoken
utterances (speechSynthesis.speak appends, speechSynthesis.cancel
empties it system-wide), and a count of blocking alerts shown. -/
structure SpeechState where
  audioState : PlayState
  isSupported : Bool
  utteranceRef : Option Utterance
  speakQueue : List Utterance
  alerts : Nat
deriving DecidableEq, Repr

/-- hay.startsWith(needle) on character lists. -/
def listStartsWith : List Char → List Char → Bool
  | _, [] => true
  | [], _ :: _ => false
  | c :: cs, d :: ds => c == d && listStartsWith cs ds

/-- hay.includes(needle) on character lists: some suffix of hay starts
with needle. -/
def containsSub : List Char → List Char → Bool
  | [], needle => listStartsWith [] needle
  | c :: rest, needle =>
      listStartsWith (c :: rest) needle || containsSub rest needle

theorem listStartsWith_iff (hay needle : List Char) :
    listStartsWith hay needle = true ↔ needle <+: hay := by
  induction needle generalizing hay with
  | nil => simp [listStartsWith]
  | cons d ds ih =>
      cases hay with
      | nil => simp [listStartsWith]
      | cons c cs =>
          simp only [listStartsWith, Bool.and_eq_true, beq_iff_eq, ih,
            List.cons_prefix_cons]
          constructor
          · rintro ⟨h1, h2⟩; exact ⟨h1.symm, h2⟩
          · rintro ⟨h1, h2⟩; exact ⟨h1.symm, h2⟩

theorem containsSub_iff (hay needle : List Char) :
    containsSub hay needle = true ↔ needle <:+: hay := by
  induction hay with
  | nil => simp [containsSub, listStartsWith_iff]
  | cons c cs ih =>
      simp [containsSub, listStartsWith_iff, ih, List.infix_cons_iff]

/-- Containment in a growing prefix of a fixed text is monotonic. -/
theorem containsSub_take_mono (text needle : List Char) (i j : Nat)
    (hij : i ≤ j) (h : containsSub (text.take i) needle = true) :
    containsSub (text.take j) needle = true := by
  rw [containsSub_iff] at h ⊢
  exact h.trans (List.take_prefix_take_left text hij).isInfix

/-- The sound effects of the speech driver. -/
inductive Effect
  | dramatic
  | laugh
  | chains
  | steps
deriving DecidableEq, Repr

def triggerChains : List Char := "la Calaca".data

def triggerChainsSuper : List Char := "la Calaca, la mera-mera".data

def triggerSteps : List Char := "entró Aaron".data

/-- The utterance.onboundary handler: with the consumed prefix
calavera.substring(0, event.charIndex), fire the chains effect if the
prefix contains 'la Calaca' but does not yet contain
'la Calaca, la mera-mera', and the steps effect if it contains
'entró Aaron'.  The result lists the effects fired at this boundary. -/
def onboundary (calavera : List Char) (charIndex : Nat) : List Effect :=
  let text := calavera.take charIndex
  (if containsSub text triggerChains
      && !containsSub text triggerChainsSuper
    then [Effect.chains] else []) ++
  (if containsSub text triggerSteps then [Effect.steps] else [])

/-- The effects fired over one narration pass whose boundary events
consume the prefixes of the given lengths. -/
def boundaryEffects (calavera : List Char) (idxs : List Nat) :
    List Effect :=
  idxs.flatMap (onboundary calavera)

/-- The first enumerated voice whose language tag starts with 'es'. -/
def spanishVoice (voices : List Voice) : Option Voice :=
  voices.find? (fun v => listStartsWith v.lang ("es".data))

/-- The utterance handlePlay constructs: full poem text, the Spanish
voice if one is enumerated (else the engine default, none), rate 0.9,
pitch 1.0, volume 1.0, lang 'es-MX'. -/
def newUtterance (calavera : List Char) (voices : List Voice) :
    Utterance :=
  { text := calavera
    voice := spanishVoice voices
    rate := 9 / 10
    pitch := 1
    volume := 1
    lang := "es-MX".data }

/-- The speech handlePlay: refuse with a blocking alert when the
capability is absent; otherwise cancel any existing utterance
system-wide, construct the new utterance, store it in the ref and
speak it. -/
def speechHandlePlay (calavera : List Char) (voices : List Voice)
    (s : SpeechState) : SpeechState :=
  if !s.isSupported then { s with alerts := s.alerts + 1 }
  else
    let su := { s with speakQueue := [] }
    let u := newUtterance calavera voices
    { su with utteranceRef := some u, speakQueue := su.speakQueue ++ [u] }

theorem chains_mem_onboundary (text : List Char) (i : Nat) :
    Effect.chains ∈ onboundary text i ↔
      (containsSub (text.take i) triggerChains = true ∧
       containsSub (text.take i) triggerChainsSuper = false) := by
  unfold onboundary
  by_cases h1 : containsSub (text.take i) triggerChains = true <;>
    by_cases h2 : containsSub (text.take i) triggerChainsSuper = true <;>
      by_cases h3 : containsSub (text.take i) triggerSteps = true <;>
        simp_all

/-- Claim C5 counterexample: under the documented containment check the
chains effect is NOT limited to one firing per narration pass: on the
text 'la Calaca xx yy' the boundaries at character offsets 11 and 14
both see a consumed prefix containing 'la Calaca' and not containing
'la Calaca, la mera-mera', so chains fires twice in the same pass. -/
theorem c5_chains_fires_twice_counterexample :
    (boundaryEffects ("la Calaca xx yy".data) [11, 14]).count Effect.chains
      = 2 := by decide

/-- Claim C5 amended: the chains effect fires at most once per boundary
event (not per narration pass), and it fires at a boundary exactly when
the consumed prefix contains 'la Calaca' and does not yet contain
'la Calaca, la mera-mera'; once the longer superstring has entered the
consumed prefix, chains never fires at that or any later boundary. -/
theorem c5_chains_per_boundary (text : List Char) (i : Nat) :
    (boundaryEffects text [i]).count Effect.chains ≤ 1 ∧
    (Effect.chains ∈ onboundary text i ↔
      (containsSub (text.take i) triggerChains = true ∧
       containsSub (text.take i) triggerChainsSuper = false)) ∧
    (∀ j, i ≤ j → containsSub (text.take i) triggerChainsSuper = true →
      Effect.chains ∉ onboundary text j) := by
  refine ⟨?_, chains_mem_onboundary text i, ?_⟩
  · unfold boundaryEffects onboundary
    by_cases h1 : containsSub (text.take i) triggerChains = true <;>
      by_cases h2 : containsSub (text.take i) triggerChainsSuper = true <;>
        by_cases h3 : containsSub (text.take i) triggerSteps = true <;>
          simp_all [List.count_cons]
  · intro j hij hsup
    rw [chains_mem_onboundary]
    rintro ⟨-, hfalse⟩
    have hmono := containsSub_take_mono text triggerChainsSuper i j hij hsup
    rw [hfalse] at hmono
    exact Bool.false_ne_true hmono

/-- Witness for c5_chains_per_boundary: the intended poem phrase, at a
boundary inside the phrase (chains fires) and at the boundary where the
superstring has been consumed (chains is silenced). -/
theorem c5_chains_per_boundary_witness :
    (boundaryEffects ("la Calaca, la mera-mera".data) [12]).count
      Effect.chains ≤ 1 ∧
    Effect.chains ∈ onboundary ("la Calaca, la mera-mera".data) 12 ∧
    Effect.chains ∉ onboundary ("la Calaca, la mera-mera".data) 23 :=
  have h12 := c5_chains_per_boundary ("la Calaca, la mera-mera".data) 12
  have h23 := c5_chains_per_boundary ("la Calaca, la mera-mera".data) 23
  ⟨h12.1, h12.2.1.mpr ⟨by decide, by decide⟩,
   h23.2.2 23 (Nat.le_refl 23) (by decide)⟩

/-- Claim C6: every supported play() first cancels all narration
system-wide and then speaks exactly one utterance built from the full
poem text, with the first Spanish-locale voice when one is enumerated
(else the engine default), and the preset rate 0.9, pitch 1.0 and
volume 1.0; in particular two play() calls in succession leave exactly
one queued utterance. -/
theorem c6_play_cancels_then_speaks_one
    (calavera : List Char) (voices : List Voice) (s : SpeechState)
    (h : s.isSupported = true) :
    (speechHandlePlay calavera voices s).speakQueue
      = [newUtterance calavera voices] ∧
    (speechHandlePlay calavera voices
      (speechHandlePlay calavera voices s)).speakQueue
      = [newUtterance calavera voices] ∧
    (newUtterance calavera voices).text = calavera ∧
    (newUtterance calavera voices).rate = 9 / 10 ∧
    (newUtterance calavera voices).pitch = 1 ∧
    (newUtterance calavera voices).volume = 1 ∧
    (∀ v, spanishVoice voices = some v →
      (newUtterance calavera voices).voice = some v ∧
      listStartsWith v.lang ("es".data) = true) ∧
    (spanishVoice voices = none →
      (newUtterance calavera voices).voice = none) := by
  refine ⟨?_, ?_, rfl, rfl, rfl, rfl, ?_, ?_⟩
  · simp [speechHandlePlay, h]
  · simp [speechHandlePlay, h]
  · intro v hv
    have hv2 : List.find? (fun u => listStartsWith u.lang ("es".data))
        voices = some v := hv
    have hv3 := List.find?_some hv2
    exact ⟨by simp [newUtterance, hv], hv3⟩
  · intro hn
    simp [newUtterance, hn]

/-- Witness for c6_play_cancels_then_speaks_one: a short text, an
English and a Spanish voice, the supported idle state. -/
theorem c6_witness :
    (speechHandlePlay ("hola".data) [⟨"en-US".data⟩, ⟨"es-MX".data⟩]
      ⟨PlayState.idle, true, none, [], 0⟩).speakQueue
      = [newUtterance ("hola".data) [⟨"en-US".data⟩, ⟨"es-MX".data⟩]] ∧
    (speechHandlePlay ("hola".data) [⟨"en-US".data⟩, ⟨"es-MX".data⟩]
      (speechHandlePlay ("hola".data) [⟨"en-US".data⟩, ⟨"es-MX".data⟩]
        ⟨PlayState.idle, true, none, [], 0⟩)).speakQueue
      = [newUtterance ("hola".data) [⟨"en-US".data⟩, ⟨"es-MX".data⟩]] ∧
    (newUtterance ("hola".data)
      [⟨"en-US".data⟩, ⟨"es-MX".data⟩]).rate = 9 / 10 :=
  have h := c6_play_cancels_then_speaks_one ("hola".data)
    [⟨"en-US".data⟩, ⟨"es-MX".data⟩]
    ⟨PlayState.idle, true, none, [], 0⟩ rfl
  ⟨h.1, h.2.1, h.2.2.2.1⟩
